import Mathlib

/-!
Shallow embedding of the 3x3 symmetric-eigendecomposition / SVD core of the
del-geo library (`del-geo-core/src/mat3_sym.rs` and
`del-geo-core/src/mat3_col_major.rs`), over exact rationals.

The generic scalar `Real: num_traits::Float` of the Rust code is embedded as
`ℚ`, together with a record `FloatOps` packaging the scalar primitives the
code obtains from the `Float` trait and which have no exact counterpart on
`ℚ` (`epsilon`, `sqrt`, `atan2`, `cos`, `sin`).  All structural theorems
quantify over an arbitrary such record; concrete witnesses instantiate it
with computable stand-ins that agree with IEEE semantics at the points the
concrete computation visits (e.g. `atan2 0 0 = 0`, `cos 0 = 1`, `sin 0 = 0`,
`sqrt 1 = 1`, which hold exactly for `f64`).

Arrays `[Real; 9]`, `[Real; 6]`, `[Real; 3]` are embedded as flat structures
`Mat9`, `Sym6`, `Vec3` whose field `mN` / `sN` / `xN` is the array entry at
index `N`, so every definition can be compared index-by-index with the Rust
source.  Fallible code returns `Option`.
-/

/-- The scalar primitives the Rust code obtains from `num_traits::Float`.
`eps` is `Real::epsilon()`; `sqrt`, `atan2`, `cos`, `sin` are the
corresponding methods. -/
structure FloatOps where
  eps : ℚ
  sqrt : ℚ → ℚ
  atan2 : ℚ → ℚ → ℚ
  cos : ℚ → ℚ
  sin : ℚ → ℚ

/-- Embedding of `[Real; 3]`; `xN` is entry `N`. -/
@[ext]
structure Vec3 where
  x0 : ℚ
  x1 : ℚ
  x2 : ℚ
deriving DecidableEq

/-- Embedding of the packed symmetric 3x3 matrix `[Real; 6]` of
`mat3_sym.rs`: `s0 s1 s2` are the diagonal entries `m00 m11 m22`, and
`s3 s4 s5` the off-diagonal entries `m12 m20 m01` (the pairs the Jacobi
branches of `eigen_decomp` associate with them). -/
@[ext]
structure Sym6 where
  s0 : ℚ
  s1 : ℚ
  s2 : ℚ
  s3 : ℚ
  s4 : ℚ
  s5 : ℚ
deriving DecidableEq

/-- Embedding of `[Real; 9]`; `mN` is the array entry at index `N`.
Whether the array is read column-major (`entry (i,j) = m[i + 3j]`, module
`mat3_col_major`) or row-major (`entry (i,j) = m[3i + j]`) is a property of
the functions acting on it, exactly as in the Rust source. -/
@[ext]
structure Mat9 where
  m0 : ℚ
  m1 : ℚ
  m2 : ℚ
  m3 : ℚ
  m4 : ℚ
  m5 : ℚ
  m6 : ℚ
  m7 : ℚ
  m8 : ℚ
deriving DecidableEq

/-- The identity matrix as a 9-array (same array row- or column-major). -/
def identity9 : Mat9 := ⟨1, 0, 0, 0, 1, 0, 0, 0, 1⟩

/-- The zero matrix as a 9-array. -/
def zero9 : Mat9 := ⟨0, 0, 0, 0, 0, 0, 0, 0, 0⟩

/-- Linear indexing `m[k]` into the 9-array, out-of-range giving `0`. -/
def Mat9.lin (m : Mat9) : ℕ → ℚ
  | 0 => m.m0
  | 1 => m.m1
  | 2 => m.m2
  | 3 => m.m3
  | 4 => m.m4
  | 5 => m.m5
  | 6 => m.m6
  | 7 => m.m7
  | 8 => m.m8
  | _ => 0

/-- Build a 9-array from an index function. -/
def Mat9.ofFn (g : ℕ → ℚ) : Mat9 :=
  ⟨g 0, g 1, g 2, g 3, g 4, g 5, g 6, g 7, g 8⟩

/-- Entry `(i, j)` of the matrix denoted by a 9-array read row-major. -/
def entry_row (m : Mat9) (i j : Fin 3) : ℚ := m.lin (3 * i.val + j.val)

/-- Entry `(i, j)` of the matrix denoted by a 9-array read column-major. -/
def entry_col (m : Mat9) (i j : Fin 3) : ℚ := m.lin (i.val + 3 * j.val)

namespace mat3_sym

/-- `mat3_sym::squared_norm`: squared Frobenius norm of the packed symmetric
matrix (diagonal entries once, off-diagonal entries twice). -/
def squared_norm (sm : Sym6) : ℚ :=
  sm.s0 * sm.s0 + sm.s1 * sm.s1 + sm.s2 * sm.s2
    + 2 * (sm.s3 * sm.s3 + sm.s4 * sm.s4 + sm.s5 * sm.s5)

/-- One iteration of the `for _itr in 0..nitr` loop body of
`mat3_sym::eigen_decomp` (lines 33-93): pick the branch by comparing the
absolute off-diagonal entries `a12 = |sms[3]|`, `a20 = |sms[4]|`,
`a01 = |sms[5]|` in source order, rotate the packed symmetric matrix and
accumulate the rotation into the (row-major) eigenvector array `u`. -/
def jacobi_step (ops : FloatOps) (p : Sym6 × Mat9) : Sym6 × Mat9 :=
  let m := p.1
  let v := p.2
  let a12 := |m.s3|
  let a20 := |m.s4|
  let a01 := |m.s5|
  if a12 ≥ a20 ∧ a12 ≥ a01 then
    let t := (1 / 2 : ℚ) * ops.atan2 (2 * m.s3) (m.s2 - m.s1)
    let ct := ops.cos t
    let st := ops.sin t
    (⟨m.s0,
      ct * ct * m.s1 + st * st * m.s2 - 2 * st * ct * m.s3,
      ct * ct * m.s2 + st * st * m.s1 + 2 * st * ct * m.s3,
      0,
      st * m.s5 + ct * m.s4,
      ct * m.s5 - st * m.s4⟩,
     ⟨v.m0, ct * v.m1 - st * v.m2, st * v.m1 + ct * v.m2,
      v.m3, ct * v.m4 - st * v.m5, st * v.m4 + ct * v.m5,
      v.m6, ct * v.m7 - st * v.m8, st * v.m7 + ct * v.m8⟩)
  else if a20 ≥ a01 ∧ a20 ≥ a12 then
    let t := (1 / 2 : ℚ) * ops.atan2 (2 * m.s4) (m.s2 - m.s0)
    let ct := ops.cos t
    let st := ops.sin t
    (⟨ct * ct * m.s0 + st * st * m.s2 - 2 * st * ct * m.s4,
      m.s1,
      ct * ct * m.s2 + st * st * m.s0 + 2 * st * ct * m.s4,
      st * m.s5 + ct * m.s3,
      0,
      ct * m.s5 - st * m.s3⟩,
     ⟨ct * v.m0 - st * v.m2, v.m1, st * v.m0 + ct * v.m2,
      ct * v.m3 - st * v.m5, v.m4, st * v.m3 + ct * v.m5,
      ct * v.m6 - st * v.m8, v.m7, st * v.m6 + ct * v.m8⟩)
  else
    let t := (1 / 2 : ℚ) * ops.atan2 (2 * m.s5) (m.s1 - m.s0)
    let ct := ops.cos t
    let st := ops.sin t
    (⟨ct * ct * m.s0 + st * st * m.s1 - 2 * st * ct * m.s5,
      ct * ct * m.s1 + st * st * m.s0 + 2 * st * ct * m.s5,
      m.s2,
      st * m.s4 + ct * m.s3,
      ct * m.s4 - st * m.s3,
      0⟩,
     ⟨ct * v.m0 - st * v.m1, st * v.m0 + ct * v.m1, v.m2,
      ct * v.m3 - st * v.m4, st * v.m3 + ct * v.m4, v.m5,
      ct * v.m6 - st * v.m7, st * v.m6 + ct * v.m7, v.m8⟩)

/-- The `for` loop of `eigen_decomp`: run the Jacobi body `n` times. -/
def jacobi_loop (ops : FloatOps) : ℕ → Sym6 × Mat9 → Sym6 × Mat9
  | 0, p => p
  | n + 1, p => jacobi_loop ops n (jacobi_step ops p)

/-- The Givens rotation angle of the branch annihilating packed entry 12:
`t = half * (two * m[3]).atan2(m[2] - m[1])`. -/
def theta_12 (ops : FloatOps) (m : Sym6) : ℚ :=
  (1 / 2 : ℚ) * ops.atan2 (2 * m.s3) (m.s2 - m.s1)

/-- The Givens rotation angle of the branch annihilating packed entry 20:
`t = half * (two * m[4]).atan2(m[2] - m[0])`. -/
def theta_20 (ops : FloatOps) (m : Sym6) : ℚ :=
  (1 / 2 : ℚ) * ops.atan2 (2 * m.s4) (m.s2 - m.s0)

/-- The Givens rotation angle of the branch annihilating packed entry 01:
`t = half * (two * m[5]).atan2(m[1] - m[0])`. -/
def theta_01 (ops : FloatOps) (m : Sym6) : ℚ :=
  (1 / 2 : ℚ) * ops.atan2 (2 * m.s5) (m.s1 - m.s0)

/-- Row-major Givens rotation in the (1,2) coordinate plane with cosine `c`
and sine `s`; right-multiplying by it realises the eigenvector update of the
first Jacobi branch. -/
def givens_rot_12 (c s : ℚ) : Mat9 := ⟨1, 0, 0, 0, c, s, 0, -s, c⟩

/-- Row-major Givens rotation in the (2,0) coordinate plane (second Jacobi
branch). -/
def givens_rot_20 (c s : ℚ) : Mat9 := ⟨c, 0, s, 0, 1, 0, -s, 0, c⟩

/-- Row-major Givens rotation in the (0,1) coordinate plane (third Jacobi
branch). -/
def givens_rot_01 (c s : ℚ) : Mat9 := ⟨c, s, 0, -s, c, 0, 0, 0, 1⟩

/-- `mat3_sym::eigen_decomp`: `None` when `squared_norm(sm) < epsilon`,
otherwise normalize by `scale = sqrt(squared_norm)`, run exactly `nitr`
Jacobi rotations starting from the identity eigenvector matrix, and return
the accumulated (row-major) eigenvector array together with the final
diagonal rescaled by `scale`. -/
def eigen_decomp (ops : FloatOps) (sm : Sym6) (nitr : ℕ) : Option (Mat9 × Vec3) :=
  let dnrm := squared_norm sm
  if dnrm < ops.eps then none
  else
    let scale := ops.sqrt dnrm
    let invscl := 1 / scale
    let sms0 : Sym6 := ⟨sm.s0 * invscl, sm.s1 * invscl, sm.s2 * invscl,
                        sm.s3 * invscl, sm.s4 * invscl, sm.s5 * invscl⟩
    let p := jacobi_loop ops nitr (sms0, identity9)
    some (p.2, ⟨scale * p.1.s0, scale * p.1.s1, scale * p.1.s2⟩)

/-- `mat3_sym::EigenDecompositionModes`.  Modelled from the spec: the enum
itself is referenced by `mat3_col_major.rs` but its declaration is not under
`src/`; per spec section 6 it selects between `JacobiNumIter(count)` (run
exactly `count` Jacobi sweeps) and `Analytic` (closed-form algebraic
solve). -/
inductive EigenDecompositionModes where
  | JacobiNumIter : ℕ → EigenDecompositionModes
  | Analytic : EigenDecompositionModes

/-- Modelled from the spec: dispatch of the eigendecomposition step on the
mode selector (spec section 6).  The `Analytic` closed-form path is not under
`src/`; the spec requires it to produce results equivalent to the Jacobi
path to solver tolerance, so it is modelled here as a high-iteration Jacobi
run.  No claim in this development depends on the `Analytic` body. -/
def eigen_by_mode (ops : FloatOps) (sm : Sym6) :
    EigenDecompositionModes → Option (Mat9 × Vec3)
  | .JacobiNumIter n => eigen_decomp ops sm n
  | .Analytic => eigen_decomp ops sm 100

end mat3_sym

namespace mat3_row_major

/-- Row-major matrix product: `r[3i+j] = sum_k a[3i+k] * b[3k+j]`. -/
def mult_mat_row_major (a b : Mat9) : Mat9 :=
  ⟨a.m0 * b.m0 + a.m1 * b.m3 + a.m2 * b.m6,
   a.m0 * b.m1 + a.m1 * b.m4 + a.m2 * b.m7,
   a.m0 * b.m2 + a.m1 * b.m5 + a.m2 * b.m8,
   a.m3 * b.m0 + a.m4 * b.m3 + a.m5 * b.m6,
   a.m3 * b.m1 + a.m4 * b.m4 + a.m5 * b.m7,
   a.m3 * b.m2 + a.m4 * b.m5 + a.m5 * b.m8,
   a.m6 * b.m0 + a.m7 * b.m3 + a.m8 * b.m6,
   a.m6 * b.m1 + a.m7 * b.m4 + a.m8 * b.m7,
   a.m6 * b.m2 + a.m7 * b.m5 + a.m8 * b.m8⟩

/-- Row-major matrix-vector product `y_i = sum_j a[3i+j] * b_j`. -/
def mult_vec (a : Mat9) (b : Vec3) : Vec3 :=
  ⟨a.m0 * b.x0 + a.m1 * b.x1 + a.m2 * b.x2,
   a.m3 * b.x0 + a.m4 * b.x1 + a.m5 * b.x2,
   a.m6 * b.x0 + a.m7 * b.x1 + a.m8 * b.x2⟩

/-- Packed Gram matrix `Aᵀ·A` of the row-major matrix `f`
(`g_ij = sum_k A[k,i]·A[k,j]`), in the packing order of `mat3_sym`. -/
def gram (f : Mat9) : Sym6 :=
  ⟨f.m0 * f.m0 + f.m3 * f.m3 + f.m6 * f.m6,
   f.m1 * f.m1 + f.m4 * f.m4 + f.m7 * f.m7,
   f.m2 * f.m2 + f.m5 * f.m5 + f.m8 * f.m8,
   f.m1 * f.m2 + f.m4 * f.m5 + f.m7 * f.m8,
   f.m2 * f.m0 + f.m5 * f.m3 + f.m8 * f.m6,
   f.m0 * f.m1 + f.m3 * f.m4 + f.m6 * f.m7⟩

/-- Standard basis column used as the arbitrary orthogonal completion for a
degenerate singular direction. -/
def basis_vec : ℕ → Vec3
  | 0 => ⟨1, 0, 0⟩
  | 1 => ⟨0, 1, 0⟩
  | _ => ⟨0, 0, 1⟩

/-- Modelled from the spec: renormalization of a derived `U` column
(spec section 4.2), with the implementation-defined orthogonal completion
for a near-zero column modelled as the standard basis vector of the same
index (spec section 9 leaves this choice open). -/
def normalize_or_basis (ops : FloatOps) (w : Vec3) (j : ℕ) : Vec3 :=
  let n2 := w.x0 * w.x0 + w.x1 * w.x1 + w.x2 * w.x2
  if n2 < ops.eps then basis_vec j
  else
    let inv := 1 / ops.sqrt n2
    ⟨w.x0 * inv, w.x1 * inv, w.x2 * inv⟩

/-- Modelled from the spec: `mat3_row_major::svd` is referenced by
`mat3_col_major.rs` but its file is not under `src/`.  Per spec section 4.2:
eigendecompose the Gram matrix `AᵀA` (propagating its `None`) to obtain `V`
and the squared singular values, take `S` as their non-negative square
roots, and derive each `U` column by transforming the corresponding `V`
column through `A` and renormalizing (degenerate columns substituted by an
orthogonal completion). -/
def svd (ops : FloatOps) (f : Mat9) (mode : mat3_sym.EigenDecompositionModes) :
    Option (Mat9 × Vec3 × Mat9) :=
  match mat3_sym.eigen_by_mode ops (gram f) mode with
  | none => none
  | some (v, l) =>
    let s : Vec3 := ⟨ops.sqrt l.x0, ops.sqrt l.x1, ops.sqrt l.x2⟩
    let u0 := normalize_or_basis ops (mult_vec f ⟨v.m0, v.m3, v.m6⟩) 0
    let u1 := normalize_or_basis ops (mult_vec f ⟨v.m1, v.m4, v.m7⟩) 1
    let u2 := normalize_or_basis ops (mult_vec f ⟨v.m2, v.m5, v.m8⟩) 2
    let u : Mat9 := ⟨u0.x0, u1.x0, u2.x0, u0.x1, u1.x1, u2.x1, u0.x2, u1.x2, u2.x2⟩
    some (u, s, v)

/-- Modelled from the spec: `mat3_row_major::svd_differential` is referenced
by `mat3_col_major.rs` but its file is not under `src/`.  Per spec section
4.4 (Papadopoulo-Lourakis): for the input perturbation direction `E_pq`
(linear index `e`, `p = e / 3`, `q = e % 3` row-major), the singular-value
derivative along axis `k` is `U[p,k]·V[q,k]`, and for each axis pair the
rotation-generator coefficients of `U` and `V` solve a 2x2 linear system
built from the corresponding singular values; coincident or zero singular
values make the formulas singular (spec: undefined behaviour; `ℚ` division
by zero yields `0` here).  The skew-generator is reported as the 3-vector
`(Ω[2,1], Ω[0,2], Ω[1,0])`. -/
def svd_differential (u : Mat9) (s : Vec3) (v : Mat9) :
    (Mat9 × Mat9 × Mat9) × (Mat9 × Mat9 × Mat9) × (Mat9 × Mat9 × Mat9) :=
  let sv : ℕ → ℚ := fun k => if k = 0 then s.x0 else if k = 1 then s.x1 else s.x2
  let b : ℕ → ℕ → ℕ → ℚ := fun e k l =>
    Mat9.lin u (3 * (e / 3) + k) * Mat9.lin v (3 * (e % 3) + l)
  let wu : ℕ → ℕ → ℕ → ℚ := fun e k l =>
    (sv l * b e k l + sv k * b e l k) / (sv l * sv l - sv k * sv k)
  let wv : ℕ → ℕ → ℕ → ℚ := fun e k l =>
    (sv k * b e k l + sv l * b e l k) / (sv l * sv l - sv k * sv k)
  ((Mat9.ofFn fun e => -(wu e 1 2),
    Mat9.ofFn fun e => wu e 0 2,
    Mat9.ofFn fun e => -(wu e 0 1)),
   (Mat9.ofFn fun e => b e 0 0,
    Mat9.ofFn fun e => b e 1 1,
    Mat9.ofFn fun e => b e 2 2),
   (Mat9.ofFn fun e => -(wv e 1 2),
    Mat9.ofFn fun e => wv e 0 2,
    Mat9.ofFn fun e => -(wv e 0 1)))

end mat3_row_major

namespace mat3_col_major

/-- `mat3_col_major::determinant` (lines 506-514). -/
def determinant (b : Mat9) : ℚ :=
  b.m0 * b.m4 * b.m8 + b.m3 * b.m7 * b.m2 + b.m6 * b.m1 * b.m5
    - b.m0 * b.m7 * b.m5 - b.m6 * b.m4 * b.m2 - b.m3 * b.m1 * b.m8

/-- `mat3_col_major::transpose` (lines 461-466). -/
def transpose (m : Mat9) : Mat9 :=
  ⟨m.m0, m.m3, m.m6, m.m1, m.m4, m.m7, m.m2, m.m5, m.m8⟩

/-- `mat3_col_major::from_diagonal` (lines 71-77). -/
def from_diagonal (s : Vec3) : Mat9 :=
  ⟨s.x0, 0, 0, 0, s.x1, 0, 0, 0, s.x2⟩

/-- `mat3_col_major::mult_mat_col_major` (lines 475-488):
`r[i+3j] = sum_k a[i+3k] * b[k+3j]`. -/
def mult_mat_col_major (a b : Mat9) : Mat9 :=
  ⟨a.m0 * b.m0 + a.m3 * b.m1 + a.m6 * b.m2,
   a.m1 * b.m0 + a.m4 * b.m1 + a.m7 * b.m2,
   a.m2 * b.m0 + a.m5 * b.m1 + a.m8 * b.m2,
   a.m0 * b.m3 + a.m3 * b.m4 + a.m6 * b.m5,
   a.m1 * b.m3 + a.m4 * b.m4 + a.m7 * b.m5,
   a.m2 * b.m3 + a.m5 * b.m4 + a.m8 * b.m5,
   a.m0 * b.m6 + a.m3 * b.m7 + a.m6 * b.m8,
   a.m1 * b.m6 + a.m4 * b.m7 + a.m7 * b.m8,
   a.m2 * b.m6 + a.m5 * b.m7 + a.m8 * b.m8⟩

/-- Negate the third column (entries 6, 7, 8) of a column-major 9-array, as
done by `enforce_rotation_matrix_for_svd`. -/
def neg_third_col (m : Mat9) : Mat9 :=
  ⟨m.m0, m.m1, m.m2, m.m3, m.m4, m.m5, -m.m6, -m.m7, -m.m8⟩

/-- Negate the first row of a column-major 9-array (entries 0, 3, 6), as
done to `v_t` in the else branch of `rotational_component`. -/
def neg_first_row (m : Mat9) : Mat9 :=
  ⟨-m.m0, m.m1, m.m2, -m.m3, m.m4, m.m5, -m.m6, m.m7, m.m8⟩

/-- Negate the third row of a column-major 9-array (entries 2, 5, 8); used
only to state the spec claim that `rotational_component` flips the sign of
`V`'s third row. -/
def neg_third_row (m : Mat9) : Mat9 :=
  ⟨m.m0, m.m1, -m.m2, m.m3, m.m4, -m.m5, m.m6, m.m7, -m.m8⟩

/-- `mat3_col_major::enforce_rotation_matrix_for_svd` (lines 613-641): if
either factor has negative determinant, negate that factor's third column
and the third singular value (checked for `v` first, then for `u`, both on
the original matrices); otherwise return the triple unchanged. -/
def enforce_rotation_matrix_for_svd (u : Mat9) (l : Vec3) (v : Mat9) :
    Mat9 × Vec3 × Mat9 :=
  if determinant v < 0 ∨ determinant u < 0 then
    let vl := if determinant v < 0
      then (neg_third_col v, (⟨l.x0, l.x1, -l.x2⟩ : Vec3))
      else (v, l)
    let ul := if determinant u < 0
      then (neg_third_col u, (⟨vl.2.x0, vl.2.x1, -vl.2.x2⟩ : Vec3))
      else (u, vl.2)
    (ul.1, ul.2, vl.1)
  else (u, l, v)

/-- The reconstruction `U * diag(S) * Vᵀ` checked by the tests and by the
exact-reconstruction contract. -/
def reconstruct (u : Mat9) (l : Vec3) (v : Mat9) : Mat9 :=
  mult_mat_col_major (mult_mat_col_major u (from_diagonal l)) (transpose v)

/-- `mat3_col_major::svd` (lines 602-611): delegate to the row-major engine
on the same 9-array (which, read row-major, denotes the transposed matrix)
and transpose the two orthogonal factors back, swapping their roles. -/
def svd (ops : FloatOps) (f : Mat9) (mode : mat3_sym.EigenDecompositionModes) :
    Option (Mat9 × Vec3 × Mat9) :=
  match mat3_row_major.svd ops f mode with
  | none => none
  | some (u, s, v) => some (transpose v, s, transpose u)

/-- The tail of `mat3_col_major::rotational_component` (lines 704-714) after
the SVD: form `u_vt = U * Vᵀ`; if its determinant is positive return it,
otherwise negate the first row of `Vᵀ` (entries 0, 3, 6 of `v_t`) and
re-multiply. -/
def rot_tail (u v : Mat9) : Mat9 :=
  let v_t := transpose v
  let u_vt := mult_mat_col_major u v_t
  if 0 < determinant u_vt then u_vt
  else mult_mat_col_major u (neg_first_row v_t)

/-- `mat3_col_major::rotational_component` (lines 698-715): SVD with
`JacobiNumIter(20)`, then `rot_tail` on its `U` and `V`.  The Rust code
calls `.unwrap()` on the SVD result, so a `None` from the SVD is a process
abort (panic); that abort is modelled here as the `none` outcome of the
`Option.map`. -/
def rotational_component (ops : FloatOps) (a : Mat9) : Option Mat9 :=
  Option.map (fun t => rot_tail t.1 t.2.2)
    (svd ops a (mat3_sym.EigenDecompositionModes.JacobiNumIter 20))

/-- The tail of `rotational_component` as the spec claim describes it:
flip the sign of `V`'s third row (instead of the first row of `Vᵀ`) before
re-multiplying.  Stated only to compare with `rot_tail`. -/
def rot_tail_claimed (u v : Mat9) : Mat9 :=
  let u_vt := mult_mat_col_major u (transpose v)
  if 0 < determinant u_vt then u_vt
  else mult_mat_col_major u (transpose (neg_third_row v))

/-- `rotational_component` as the spec claim describes it; stated only to
compare with `rotational_component`. -/
def rotational_component_claimed (ops : FloatOps) (a : Mat9) : Option Mat9 :=
  Option.map (fun t => rot_tail_claimed t.1 t.2.2)
    (svd ops a (mat3_sym.EigenDecompositionModes.JacobiNumIter 20))

/-- `mat3_col_major::svd_differential` (lines 742-750): delegate to the
row-major differential on `(vᵀ, s, uᵀ)` and swap the `U`- and
`V`-sensitivity outputs back. -/
def svd_differential (u : Mat9) (s : Vec3) (v : Mat9) :
    (Mat9 × Mat9 × Mat9) × (Mat9 × Mat9 × Mat9) × (Mat9 × Mat9 × Mat9) :=
  let t := mat3_row_major.svd_differential (transpose v) s (transpose u)
  (t.2.2, t.2.1, t.1)

end mat3_col_major

/-- A concrete `FloatOps` used by witnesses and counterexamples: `f64`'s
machine epsilon, and stand-ins for the transcendental primitives that agree
with IEEE `f64` at every point the concrete computations below evaluate them
(`atan2 0 0 = 0`, `cos 0 = 1`, `sin 0 = 0`, `sqrt 1 = 1`, `sqrt 3 ≠ 0`). -/
def ops0 : FloatOps where
  eps := 1 / 4503599627370496
  sqrt := fun q => if q = 3 then 7 / 4 else if q = 1 then 1 else 0
  atan2 := fun _ _ => 0
  cos := fun _ => 1
  sin := fun _ => 0

/-- Packed symmetric matrix with Frobenius norm `2 ^ (-30)` (squared norm
`2 ^ (-60)`): below `f64` epsilon in squared norm, far above it in norm. -/
def sm_small : Sym6 := ⟨1 / 1073741824, 0, 0, 0, 0, 0⟩

/-- The reflection `diag(1, 1, -1)` (the same 9-array row- or
column-major). -/
def mat_refl : Mat9 := ⟨1, 0, 0, 0, 1, 0, 0, 0, -1⟩

/-- The rotation `diag(-1, 1, -1)`. -/
def mat_rot_out : Mat9 := ⟨-1, 0, 0, 0, 1, 0, 0, 0, -1⟩

/-- A concrete singular-value triple for witnesses. -/
def vec_l0 : Vec3 := ⟨2, 3, 5⟩

open mat3_col_major

/-! ### Helper lemmas about the column-major operations -/

theorem determinant_neg_third_col (m : Mat9) :
    determinant (neg_third_col m) = -determinant m := by
  simp only [determinant, neg_third_col]
  ring

theorem determinant_neg_first_row (m : Mat9) :
    determinant (neg_first_row m) = -determinant m := by
  simp only [determinant, neg_first_row]
  ring

theorem determinant_transpose (m : Mat9) :
    determinant (transpose m) = determinant m := by
  simp only [determinant, transpose]
  ring

theorem determinant_mult (a b : Mat9) :
    determinant (mult_mat_col_major a b) = determinant a * determinant b := by
  simp only [determinant, mult_mat_col_major]
  ring

theorem reconstruct_flip_v (u : Mat9) (l : Vec3) (v : Mat9) :
    reconstruct u ⟨l.x0, l.x1, -l.x2⟩ (neg_third_col v) = reconstruct u l v := by
  ext <;> simp only [reconstruct, mult_mat_col_major, from_diagonal, transpose, neg_third_col]
    <;> ring

theorem reconstruct_flip_u (u : Mat9) (l : Vec3) (v : Mat9) :
    reconstruct (neg_third_col u) ⟨l.x0, l.x1, -l.x2⟩ v = reconstruct u l v := by
  ext <;> simp only [reconstruct, mult_mat_col_major, from_diagonal, transpose, neg_third_col]
    <;> ring

theorem reconstruct_flip_both (u : Mat9) (l : Vec3) (v : Mat9) :
    reconstruct (neg_third_col u) l (neg_third_col v) = reconstruct u l v := by
  ext <;> simp only [reconstruct, mult_mat_col_major, from_diagonal, transpose, neg_third_col]
    <;> ring

theorem enforce_eval_pp (u : Mat9) (l : Vec3) (v : Mat9)
    (hu : ¬ determinant u < 0) (hv : ¬ determinant v < 0) :
    enforce_rotation_matrix_for_svd u l v = (u, l, v) := by
  simp [enforce_rotation_matrix_for_svd, hu, hv]

theorem enforce_eval_pn (u : Mat9) (l : Vec3) (v : Mat9)
    (hu : ¬ determinant u < 0) (hv : determinant v < 0) :
    enforce_rotation_matrix_for_svd u l v = (u, ⟨l.x0, l.x1, -l.x2⟩, neg_third_col v) := by
  simp [enforce_rotation_matrix_for_svd, hu, hv]

theorem enforce_eval_np (u : Mat9) (l : Vec3) (v : Mat9)
    (hu : determinant u < 0) (hv : ¬ determinant v < 0) :
    enforce_rotation_matrix_for_svd u l v = (neg_third_col u, ⟨l.x0, l.x1, -l.x2⟩, v) := by
  simp [enforce_rotation_matrix_for_svd, hu, hv]

theorem enforce_eval_nn (u : Mat9) (l : Vec3) (v : Mat9)
    (hu : determinant u < 0) (hv : determinant v < 0) :
    enforce_rotation_matrix_for_svd u l v = (neg_third_col u, l, neg_third_col v) := by
  simp [enforce_rotation_matrix_for_svd, hu, hv]

/-! ### Claims C1, C8, C10 about `enforce_rotation_matrix_for_svd` -/

/-- C1: for every SVD triple `(U, S, V)` (orthogonal factors have
determinant `+1` or `-1`), `enforce_rotation_matrix_for_svd` returns a
triple whose factors both have determinant `+1`, whose reconstruction
`U'·diag(S')·V'ᵀ` is exactly equal to `U·diag(S)·Vᵀ` (the only operations
performed are sign flips, which are exact in floating point as well as
here), and a factor whose determinant is already `+1` is returned
unchanged. -/
theorem claim_C1_enforce_rotation (u : Mat9) (l : Vec3) (v : Mat9)
    (hu : determinant u = 1 ∨ determinant u = -1)
    (hv : determinant v = 1 ∨ determinant v = -1) :
    determinant (enforce_rotation_matrix_for_svd u l v).1 = 1 ∧
    determinant (enforce_rotation_matrix_for_svd u l v).2.2 = 1 ∧
    reconstruct (enforce_rotation_matrix_for_svd u l v).1
        (enforce_rotation_matrix_for_svd u l v).2.1
        (enforce_rotation_matrix_for_svd u l v).2.2
      = reconstruct u l v ∧
    (determinant u = 1 → (enforce_rotation_matrix_for_svd u l v).1 = u) ∧
    (determinant v = 1 → (enforce_rotation_matrix_for_svd u l v).2.2 = v) := by
  rcases hu with hu1 | hu1 <;> rcases hv with hv1 | hv1
  · have hu' : ¬ determinant u < 0 := by rw [hu1]; norm_num
    have hv' : ¬ determinant v < 0 := by rw [hv1]; norm_num
    rw [enforce_eval_pp u l v hu' hv']
    exact ⟨hu1, hv1, rfl, fun _ => rfl, fun _ => rfl⟩
  · have hu' : ¬ determinant u < 0 := by rw [hu1]; norm_num
    have hv' : determinant v < 0 := by rw [hv1]; norm_num
    rw [enforce_eval_pn u l v hu' hv']
    refine ⟨hu1, ?_, reconstruct_flip_v u l v, fun _ => rfl, fun h => ?_⟩
    · rw [determinant_neg_third_col, hv1]; norm_num
    · rw [hv1] at h; norm_num at h
  · have hu' : determinant u < 0 := by rw [hu1]; norm_num
    have hv' : ¬ determinant v < 0 := by rw [hv1]; norm_num
    rw [enforce_eval_np u l v hu' hv']
    refine ⟨?_, hv1, reconstruct_flip_u u l v, fun h => ?_, fun _ => rfl⟩
    · rw [determinant_neg_third_col, hu1]; norm_num
    · rw [hu1] at h; norm_num at h
  · have hu' : determinant u < 0 := by rw [hu1]; norm_num
    have hv' : determinant v < 0 := by rw [hv1]; norm_num
    rw [enforce_eval_nn u l v hu' hv']
    refine ⟨?_, ?_, reconstruct_flip_both u l v, fun h => ?_, fun h => ?_⟩
    · rw [determinant_neg_third_col, hu1]; norm_num
    · rw [determinant_neg_third_col, hv1]; norm_num
    · rw [hu1] at h; norm_num at h
    · rw [hv1] at h; norm_num at h

/-- Witness for C1 at the concrete triple `U = diag(1,1,-1)`,
`S = (2,3,5)`, `V = I`. -/
theorem claim_C1_witness :
    ((determinant mat_refl = 1 ∨ determinant mat_refl = -1) ∧
     (determinant identity9 = 1 ∨ determinant identity9 = -1)) ∧
    (determinant (enforce_rotation_matrix_for_svd mat_refl vec_l0 identity9).1 = 1 ∧
     determinant (enforce_rotation_matrix_for_svd mat_refl vec_l0 identity9).2.2 = 1 ∧
     reconstruct (enforce_rotation_matrix_for_svd mat_refl vec_l0 identity9).1
         (enforce_rotation_matrix_for_svd mat_refl vec_l0 identity9).2.1
         (enforce_rotation_matrix_for_svd mat_refl vec_l0 identity9).2.2
       = reconstruct mat_refl vec_l0 identity9 ∧
     (determinant mat_refl = 1 →
       (enforce_rotation_matrix_for_svd mat_refl vec_l0 identity9).1 = mat_refl) ∧
     (determinant identity9 = 1 →
       (enforce_rotation_matrix_for_svd mat_refl vec_l0 identity9).2.2 = identity9)) :=
  ⟨⟨Or.inr (by norm_num [determinant, mat_refl]),
    Or.inl (by norm_num [determinant, identity9])⟩,
   claim_C1_enforce_rotation mat_refl vec_l0 identity9
     (Or.inr (by norm_num [determinant, mat_refl]))
     (Or.inl (by norm_num [determinant, identity9]))⟩

/-- C8: `enforce_rotation_matrix_for_svd` returns a triple with U and V of
nonnegative determinant unchanged, and applying it a second time to any of
its outputs is a no-op. -/
theorem claim_C8_idempotent (u : Mat9) (l : Vec3) (v : Mat9) :
    (0 ≤ determinant u → 0 ≤ determinant v →
      enforce_rotation_matrix_for_svd u l v = (u, l, v)) ∧
    enforce_rotation_matrix_for_svd
        (enforce_rotation_matrix_for_svd u l v).1
        (enforce_rotation_matrix_for_svd u l v).2.1
        (enforce_rotation_matrix_for_svd u l v).2.2
      = enforce_rotation_matrix_for_svd u l v := by
  constructor
  · intro hu hv
    exact enforce_eval_pp u l v (not_lt.mpr hu) (not_lt.mpr hv)
  · by_cases hu : determinant u < 0 <;> by_cases hv : determinant v < 0
    · rw [enforce_eval_nn u l v hu hv]
      exact enforce_eval_pp _ _ _
        (by rw [determinant_neg_third_col]; linarith)
        (by rw [determinant_neg_third_col]; linarith)
    · rw [enforce_eval_np u l v hu hv]
      exact enforce_eval_pp _ _ _
        (by rw [determinant_neg_third_col]; linarith) hv
    · rw [enforce_eval_pn u l v hu hv]
      exact enforce_eval_pp _ _ _ hu
        (by rw [determinant_neg_third_col]; linarith)
    · rw [enforce_eval_pp u l v hu hv]
      exact enforce_eval_pp u l v hu hv

/-- Witness for C8 at the concrete triple `(I, (2,3,5), I)`. -/
theorem claim_C8_witness :
    (0 ≤ determinant identity9) ∧
    enforce_rotation_matrix_for_svd identity9 vec_l0 identity9
      = (identity9, vec_l0, identity9) ∧
    enforce_rotation_matrix_for_svd
        (enforce_rotation_matrix_for_svd identity9 vec_l0 identity9).1
        (enforce_rotation_matrix_for_svd identity9 vec_l0 identity9).2.1
        (enforce_rotation_matrix_for_svd identity9 vec_l0 identity9).2.2
      = enforce_rotation_matrix_for_svd identity9 vec_l0 identity9 :=
  ⟨by norm_num [determinant, identity9],
   (claim_C8_idempotent identity9 vec_l0 identity9).1
     (by norm_num [determinant, identity9]) (by norm_num [determinant, identity9]),
   (claim_C8_idempotent identity9 vec_l0 identity9).2⟩

/-- C10 (implicit frame property): `enforce_rotation_matrix_for_svd` leaves
the first two columns of `U` and `V` and the first two singular values
bitwise unchanged; the only possible modifications are negating the third
column of `U`, negating the third column of `V`, and flipping the sign of
`S[2]`. -/
theorem claim_C10_frame (u : Mat9) (l : Vec3) (v : Mat9) :
    ((enforce_rotation_matrix_for_svd u l v).1 = u ∨
     (enforce_rotation_matrix_for_svd u l v).1 = neg_third_col u) ∧
    ((enforce_rotation_matrix_for_svd u l v).2.2 = v ∨
     (enforce_rotation_matrix_for_svd u l v).2.2 = neg_third_col v) ∧
    (enforce_rotation_matrix_for_svd u l v).2.1.x0 = l.x0 ∧
    (enforce_rotation_matrix_for_svd u l v).2.1.x1 = l.x1 ∧
    ((enforce_rotation_matrix_for_svd u l v).2.1.x2 = l.x2 ∨
     (enforce_rotation_matrix_for_svd u l v).2.1.x2 = -l.x2) := by
  by_cases hu : determinant u < 0 <;> by_cases hv : determinant v < 0
  · rw [enforce_eval_nn u l v hu hv]
    exact ⟨Or.inr rfl, Or.inr rfl, rfl, rfl, Or.inl rfl⟩
  · rw [enforce_eval_np u l v hu hv]
    exact ⟨Or.inr rfl, Or.inl rfl, rfl, rfl, Or.inr rfl⟩
  · rw [enforce_eval_pn u l v hu hv]
    exact ⟨Or.inl rfl, Or.inr rfl, rfl, rfl, Or.inr rfl⟩
  · rw [enforce_eval_pp u l v hu hv]
    exact ⟨Or.inl rfl, Or.inl rfl, rfl, rfl, Or.inl rfl⟩

/-! ### Claim C2: the degeneracy test of `eigen_decomp` -/

/-- C2 counterexample: the claim states `eigen_decomp` returns `None` if and
only if the input's Frobenius norm is below machine epsilon.  Since both
sides are nonnegative, `frobenius_norm < eps` is equivalent to
`squared_norm < eps * eps`.  For the packed matrix with single diagonal
entry `2 ^ (-30)` (`f64` epsilon is `2 ^ (-52)`), the squared norm is
`2 ^ (-60) < eps`, so the code returns `None`, yet the Frobenius norm
`2 ^ (-30)` is far above epsilon (`squared_norm ≥ eps * eps`), so the claim
as stated predicts `Some`. -/
theorem claim_C2_counterexample :
    mat3_sym.eigen_decomp ops0 sm_small 1 = none ∧
    ¬ mat3_sym.squared_norm sm_small < ops0.eps * ops0.eps := by
  constructor
  · rw [mat3_sym.eigen_decomp, if_pos (by norm_num [mat3_sym.squared_norm, sm_small, ops0])]
  · norm_num [mat3_sym.squared_norm, sm_small, ops0]

/-- C2 amended: `eigen_decomp` returns `None` if and only if the SQUARED
Frobenius norm of the packed input (`squared_norm`, the quantity the code
stores in `dnrm`) is below machine epsilon; every other input yields
`Some`. -/
theorem claim_C2_none_iff_squared_norm (ops : FloatOps) (sm : Sym6) (nitr : ℕ) :
    mat3_sym.eigen_decomp ops sm nitr = none ↔ mat3_sym.squared_norm sm < ops.eps := by
  rw [mat3_sym.eigen_decomp]
  split_ifs with h <;> simp [h]

/-! ### Claims C4, C5: the Jacobi iteration -/

/-- If neither the first nor the second branch condition of the Jacobi pivot
selection holds, the third off-diagonal magnitude is the largest. -/
theorem pivot_else_max (a b c : ℚ) (h1 : ¬ (a ≥ b ∧ a ≥ c)) (h2 : ¬ (b ≥ c ∧ b ≥ a)) :
    c ≥ a ∧ c ≥ b := by
  push_neg at h1 h2
  by_cases hba : b ≤ a
  · have hac : a < c := h1 hba
    exact ⟨hac.le, le_of_lt (lt_of_le_of_lt hba hac)⟩
  · push_neg at hba
    by_cases hcb : c ≤ b
    · exact absurd (h2 hcb) (by linarith)
    · push_neg at hcb
      exact ⟨le_of_lt (lt_trans hba hcb), hcb.le⟩

/-- The `for` loop of `eigen_decomp` is iteration of the Jacobi body. -/
theorem jacobi_loop_eq_iterate (ops : FloatOps) :
    ∀ (n : ℕ) (p : Sym6 × Mat9),
      mat3_sym.jacobi_loop ops n p = (mat3_sym.jacobi_step ops)^[n] p := by
  intro n
  induction n with
  | zero => intro p; rfl
  | succ k ih =>
    intro p
    rw [mat3_sym.jacobi_loop, ih (mat3_sym.jacobi_step ops p),
      Function.iterate_succ_apply]

/-- C4: each Jacobi iteration selects the largest-magnitude off-diagonal
entry among the packed entries 12, 20, 01 — the branch conditions are
exhaustive, are evaluated in source order (12, then 20, then 01), so ties go
to the earliest branch — and the taken branch writes an exact `0` into the
selected packed entry and accumulates the Givens rotation with angle
`θ = ½·atan2(2·m, diag_i − diag_j)` into the eigenvector matrix `U` by
right-multiplication. -/
theorem claim_C4_pivot_selection (ops : FloatOps) (m : Sym6) (u : Mat9) :
    ((|m.s3| ≥ |m.s4| ∧ |m.s3| ≥ |m.s5|) ∨ (|m.s4| ≥ |m.s5| ∧ |m.s4| ≥ |m.s3|)
      ∨ (|m.s5| ≥ |m.s3| ∧ |m.s5| ≥ |m.s4|)) ∧
    (if |m.s3| ≥ |m.s4| ∧ |m.s3| ≥ |m.s5| then
      (mat3_sym.jacobi_step ops (m, u)).1.s3 = 0 ∧
      (mat3_sym.jacobi_step ops (m, u)).2
        = mat3_row_major.mult_mat_row_major u
            (mat3_sym.givens_rot_12 (ops.cos (mat3_sym.theta_12 ops m))
              (ops.sin (mat3_sym.theta_12 ops m)))
    else if |m.s4| ≥ |m.s5| ∧ |m.s4| ≥ |m.s3| then
      (mat3_sym.jacobi_step ops (m, u)).1.s4 = 0 ∧
      (mat3_sym.jacobi_step ops (m, u)).2
        = mat3_row_major.mult_mat_row_major u
            (mat3_sym.givens_rot_20 (ops.cos (mat3_sym.theta_20 ops m))
              (ops.sin (mat3_sym.theta_20 ops m)))
    else
      (|m.s5| ≥ |m.s3| ∧ |m.s5| ≥ |m.s4|) ∧
      (mat3_sym.jacobi_step ops (m, u)).1.s5 = 0 ∧
      (mat3_sym.jacobi_step ops (m, u)).2
        = mat3_row_major.mult_mat_row_major u
            (mat3_sym.givens_rot_01 (ops.cos (mat3_sym.theta_01 ops m))
              (ops.sin (mat3_sym.theta_01 ops m)))) := by
  constructor
  · by_cases h1 : |m.s3| ≥ |m.s4| ∧ |m.s3| ≥ |m.s5|
    · exact Or.inl h1
    · by_cases h2 : |m.s4| ≥ |m.s5| ∧ |m.s4| ≥ |m.s3|
      · exact Or.inr (Or.inl h2)
      · exact Or.inr (Or.inr (pivot_else_max _ _ _ h1 h2))
  · split_ifs with h1 h2
    · constructor
      · simp [mat3_sym.jacobi_step, h1]
      · ext <;>
          simp [mat3_sym.jacobi_step, h1, mat3_row_major.mult_mat_row_major,
            mat3_sym.givens_rot_12, mat3_sym.theta_12] <;> ring
    · constructor
      · simp [mat3_sym.jacobi_step, h1, h2]
      · ext <;>
          simp [mat3_sym.jacobi_step, h1, h2, mat3_row_major.mult_mat_row_major,
            mat3_sym.givens_rot_20, mat3_sym.theta_20] <;> ring
    · refine ⟨pivot_else_max _ _ _ h1 h2, ?_, ?_⟩
      · simp [mat3_sym.jacobi_step, h1, h2]
      · ext <;>
          simp [mat3_sym.jacobi_step, h1, h2, mat3_row_major.mult_mat_row_major,
            mat3_sym.givens_rot_01, mat3_sym.theta_01] <;> ring

/-- C5: on every non-degenerate input, `eigen_decomp` first normalizes the
packed matrix by its Frobenius norm `sqrt(squared_norm)`, then performs
exactly `n` Jacobi rotations — iteration of `jacobi_step`, with no
convergence check or early exit for any input or budget — and returns the
final diagonal rescaled by that same factor as the eigenvalues. -/
theorem claim_C5_exact_iteration (ops : FloatOps) (sm : Sym6) (n : ℕ)
    (h : ¬ mat3_sym.squared_norm sm < ops.eps) :
    mat3_sym.eigen_decomp ops sm n =
      some
        (((mat3_sym.jacobi_step ops)^[n]
            ((⟨sm.s0 * (1 / ops.sqrt (mat3_sym.squared_norm sm)),
               sm.s1 * (1 / ops.sqrt (mat3_sym.squared_norm sm)),
               sm.s2 * (1 / ops.sqrt (mat3_sym.squared_norm sm)),
               sm.s3 * (1 / ops.sqrt (mat3_sym.squared_norm sm)),
               sm.s4 * (1 / ops.sqrt (mat3_sym.squared_norm sm)),
               sm.s5 * (1 / ops.sqrt (mat3_sym.squared_norm sm))⟩ : Sym6),
             identity9)).2,
         ⟨ops.sqrt (mat3_sym.squared_norm sm) *
            ((mat3_sym.jacobi_step ops)^[n]
              ((⟨sm.s0 * (1 / ops.sqrt (mat3_sym.squared_norm sm)),
                 sm.s1 * (1 / ops.sqrt (mat3_sym.squared_norm sm)),
                 sm.s2 * (1 / ops.sqrt (mat3_sym.squared_norm sm)),
                 sm.s3 * (1 / ops.sqrt (mat3_sym.squared_norm sm)),
                 sm.s4 * (1 / ops.sqrt (mat3_sym.squared_norm sm)),
                 sm.s5 * (1 / ops.sqrt (mat3_sym.squared_norm sm))⟩ : Sym6),
               identity9)).1.s0,
          ops.sqrt (mat3_sym.squared_norm sm) *
            ((mat3_sym.jacobi_step ops)^[n]
              ((⟨sm.s0 * (1 / ops.sqrt (mat3_sym.squared_norm sm)),
                 sm.s1 * (1 / ops.sqrt (mat3_sym.squared_norm sm)),
                 sm.s2 * (1 / ops.sqrt (mat3_sym.squared_norm sm)),
                 sm.s3 * (1 / ops.sqrt (mat3_sym.squared_norm sm)),
                 sm.s4 * (1 / ops.sqrt (mat3_sym.squared_norm sm)),
                 sm.s5 * (1 / ops.sqrt (mat3_sym.squared_norm sm))⟩ : Sym6),
               identity9)).1.s1,
          ops.sqrt (mat3_sym.squared_norm sm) *
            ((mat3_sym.jacobi_step ops)^[n]
              ((⟨sm.s0 * (1 / ops.sqrt (mat3_sym.squared_norm sm)),
                 sm.s1 * (1 / ops.sqrt (mat3_sym.squared_norm sm)),
                 sm.s2 * (1 / ops.sqrt (mat3_sym.squared_norm sm)),
                 sm.s3 * (1 / ops.sqrt (mat3_sym.squared_norm sm)),
                 sm.s4 * (1 / ops.sqrt (mat3_sym.squared_norm sm)),
                 sm.s5 * (1 / ops.sqrt (mat3_sym.squared_norm sm))⟩ : Sym6),
               identity9)).1.s2⟩) := by
  simp only [mat3_sym.eigen_decomp, jacobi_loop_eq_iterate]
  rw [if_neg h]

/-- Witness for C5 at the packed identity matrix and budget `2`. -/
theorem claim_C5_witness :
    (¬ mat3_sym.squared_norm ⟨1, 1, 1, 0, 0, 0⟩ < ops0.eps) ∧
    mat3_sym.eigen_decomp ops0 ⟨1, 1, 1, 0, 0, 0⟩ 2 =
      some
        (((mat3_sym.jacobi_step ops0)^[2]
            ((⟨1 * (1 / ops0.sqrt (mat3_sym.squared_norm ⟨1, 1, 1, 0, 0, 0⟩)),
               1 * (1 / ops0.sqrt (mat3_sym.squared_norm ⟨1, 1, 1, 0, 0, 0⟩)),
               1 * (1 / ops0.sqrt (mat3_sym.squared_norm ⟨1, 1, 1, 0, 0, 0⟩)),
               0 * (1 / ops0.sqrt (mat3_sym.squared_norm ⟨1, 1, 1, 0, 0, 0⟩)),
               0 * (1 / ops0.sqrt (mat3_sym.squared_norm ⟨1, 1, 1, 0, 0, 0⟩)),
               0 * (1 / ops0.sqrt (mat3_sym.squared_norm ⟨1, 1, 1, 0, 0, 0⟩))⟩ : Sym6),
             identity9)).2,
         ⟨ops0.sqrt (mat3_sym.squared_norm ⟨1, 1, 1, 0, 0, 0⟩) *
            ((mat3_sym.jacobi_step ops0)^[2]
              ((⟨1 * (1 / ops0.sqrt (mat3_sym.squared_norm ⟨1, 1, 1, 0, 0, 0⟩)),
                 1 * (1 / ops0.sqrt (mat3_sym.squared_norm ⟨1, 1, 1, 0, 0, 0⟩)),
                 1 * (1 / ops0.sqrt (mat3_sym.squared_norm ⟨1, 1, 1, 0, 0, 0⟩)),
                 0 * (1 / ops0.sqrt (mat3_sym.squared_norm ⟨1, 1, 1, 0, 0, 0⟩)),
                 0 * (1 / ops0.sqrt (mat3_sym.squared_norm ⟨1, 1, 1, 0, 0, 0⟩)),
                 0 * (1 / ops0.sqrt (mat3_sym.squared_norm ⟨1, 1, 1, 0, 0, 0⟩))⟩ : Sym6),
               identity9)).1.s0,
          ops0.sqrt (mat3_sym.squared_norm ⟨1, 1, 1, 0, 0, 0⟩) *
            ((mat3_sym.jacobi_step ops0)^[2]
              ((⟨1 * (1 / ops0.sqrt (mat3_sym.squared_norm ⟨1, 1, 1, 0, 0, 0⟩)),
                 1 * (1 / ops0.sqrt (mat3_sym.squared_norm ⟨1, 1, 1, 0, 0, 0⟩)),
                 1 * (1 / ops0.sqrt (mat3_sym.squared_norm ⟨1, 1, 1, 0, 0, 0⟩)),
                 0 * (1 / ops0.sqrt (mat3_sym.squared_norm ⟨1, 1, 1, 0, 0, 0⟩)),
                 0 * (1 / ops0.sqrt (mat3_sym.squared_norm ⟨1, 1, 1, 0, 0, 0⟩)),
                 0 * (1 / ops0.sqrt (mat3_sym.squared_norm ⟨1, 1, 1, 0, 0, 0⟩))⟩ : Sym6),
               identity9)).1.s1,
          ops0.sqrt (mat3_sym.squared_norm ⟨1, 1, 1, 0, 0, 0⟩) *
            ((mat3_sym.jacobi_step ops0)^[2]
              ((⟨1 * (1 / ops0.sqrt (mat3_sym.squared_norm ⟨1, 1, 1, 0, 0, 0⟩)),
                 1 * (1 / ops0.sqrt (mat3_sym.squared_norm ⟨1, 1, 1, 0, 0, 0⟩)),
                 1 * (1 / ops0.sqrt (mat3_sym.squared_norm ⟨1, 1, 1, 0, 0, 0⟩)),
                 0 * (1 / ops0.sqrt (mat3_sym.squared_norm ⟨1, 1, 1, 0, 0, 0⟩)),
                 0 * (1 / ops0.sqrt (mat3_sym.squared_norm ⟨1, 1, 1, 0, 0, 0⟩)),
                 0 * (1 / ops0.sqrt (mat3_sym.squared_norm ⟨1, 1, 1, 0, 0, 0⟩))⟩ : Sym6),
               identity9)).1.s2⟩) :=
  ⟨by norm_num [mat3_sym.squared_norm, ops0],
   claim_C5_exact_iteration ops0 ⟨1, 1, 1, 0, 0, 0⟩ 2
     (by norm_num [mat3_sym.squared_norm, ops0])⟩

/-! ### Claim C6: row-major / column-major duality -/

/-- C6: the column-major `svd` delegates to the row-major engine on the same
9-array — which, read row-major (second conjunct), denotes exactly the
transposed matrix — and transposes all outputs back with the roles of `U`
and `V` swapped; likewise the column-major `svd_differential` is the
row-major differential of the transposed triple (the arrays `vᵀ, s, uᵀ`
denote, row-major, the matrices `V, S, U` — fourth conjunct) with the `U`-
and `V`-sensitivity outputs swapped back. -/
theorem claim_C6_layout_duality (ops : FloatOps) (f : Mat9)
    (mode : mat3_sym.EigenDecompositionModes) (u : Mat9) (s : Vec3) (v : Mat9) :
    mat3_col_major.svd ops f mode
      = Option.map (fun t => (transpose t.2.2, t.2.1, transpose t.1))
          (mat3_row_major.svd ops f mode) ∧
    (∀ i j : Fin 3, entry_row f i j = entry_col (transpose f) i j) ∧
    mat3_col_major.svd_differential u s v
      = (fun t => (t.2.2, t.2.1, t.1))
          (mat3_row_major.svd_differential (transpose v) s (transpose u)) ∧
    (∀ i j : Fin 3, entry_row (transpose v) i j = entry_col v i j) := by
  refine ⟨?_, ?_, rfl, ?_⟩
  · cases h : mat3_row_major.svd ops f mode with
    | none => simp [mat3_col_major.svd, h]
    | some t =>
      obtain ⟨u1, s1, v1⟩ := t
      simp [mat3_col_major.svd, h]
  · intro i j
    fin_cases i <;> fin_cases j <;> rfl
  · intro i j
    fin_cases i <;> fin_cases j <;> rfl

/-! ### Claim C3: degeneracy surfaces as `None`, except in
`rotational_component`, which unwraps -/

/-- C3 amended: a degenerate (near-zero squared Frobenius norm) input makes
the eigendecomposition return `None`, and both SVD layers propagate that
`None` to their caller unchanged; `rotational_component`, however, calls
`.unwrap()` on the SVD result, so for it the propagated `None` is a process
abort (modelled by the `none` outcome of `rotational_component`) rather
than a returned absence. -/
theorem claim_C3_degeneracy_abort (ops : FloatOps) (a : Mat9)
    (mode : mat3_sym.EigenDecompositionModes) :
    (mat3_row_major.svd ops a mode = none
      ↔ mat3_sym.eigen_by_mode ops (mat3_row_major.gram a) mode = none) ∧
    (mat3_col_major.svd ops a mode = none ↔ mat3_row_major.svd ops a mode = none) ∧
    (rotational_component ops a = none
      ↔ mat3_col_major.svd ops a (mat3_sym.EigenDecompositionModes.JacobiNumIter 20)
          = none) := by
  refine ⟨?_, ?_, ?_⟩
  · cases h : mat3_sym.eigen_by_mode ops (mat3_row_major.gram a) mode with
    | none => simp [mat3_row_major.svd, h]
    | some t =>
      obtain ⟨v1, l1⟩ := t
      simp [mat3_row_major.svd, h]
  · cases h : mat3_row_major.svd ops a mode with
    | none => simp [mat3_col_major.svd, h]
    | some t =>
      obtain ⟨u1, s1, v1⟩ := t
      simp [mat3_col_major.svd, h]
  · simp only [rotational_component, Option.map_eq_none']

/-- A degenerate packed input makes `eigen_decomp` return `None` (general
helper, proved on the abstract arguments so concrete instances need not
reduce the Jacobi loop). -/
theorem eigen_decomp_none_of_degenerate (ops : FloatOps) (sm : Sym6) (n : ℕ)
    (h : mat3_sym.squared_norm sm < ops.eps) :
    mat3_sym.eigen_decomp ops sm n = none := by
  rw [mat3_sym.eigen_decomp]
  rw [if_pos h]

/-- C3 counterexample: on the zero matrix (degenerate: zero Frobenius norm)
the SVD inside `rotational_component` returns `None` and the `.unwrap()`
panics — modelled by the `none` outcome — so `rotational_component` aborts
rather than surfacing the degeneracy as an absence of result. -/
theorem claim_C3_counterexample :
    mat3_col_major.svd ops0 zero9 (mat3_sym.EigenDecompositionModes.JacobiNumIter 20)
        = none ∧
    rotational_component ops0 zero9 = none := by
  have h0 : mat3_sym.eigen_decomp ops0 (mat3_row_major.gram zero9) 20 = none :=
    eigen_decomp_none_of_degenerate ops0 _ 20
      (by norm_num [mat3_row_major.gram, mat3_sym.squared_norm, zero9, ops0])
  have h1 : mat3_col_major.svd ops0 zero9
      (mat3_sym.EigenDecompositionModes.JacobiNumIter 20) = none := by
    simp only [mat3_col_major.svd, mat3_row_major.svd, mat3_sym.eigen_by_mode, h0]
  exact ⟨h1, by simp only [rotational_component, h1, Option.map_none']⟩

/-! ### Claim C7: `rotational_component` -/

set_option maxRecDepth 8000 in
/-- Explicit form of the first Jacobi branch (taken when packed entry 12 has
the largest magnitude, including on ties). -/
theorem jacobi_step_eq_of_branch1 (ops : FloatOps) (m : Sym6) (u : Mat9)
    (h : |m.s3| ≥ |m.s4| ∧ |m.s3| ≥ |m.s5|) :
    mat3_sym.jacobi_step ops (m, u)
      = ((⟨m.s0,
          ops.cos ((1 / 2 : ℚ) * ops.atan2 (2 * m.s3) (m.s2 - m.s1)) *
              ops.cos ((1 / 2 : ℚ) * ops.atan2 (2 * m.s3) (m.s2 - m.s1)) * m.s1 +
            ops.sin ((1 / 2 : ℚ) * ops.atan2 (2 * m.s3) (m.s2 - m.s1)) *
              ops.sin ((1 / 2 : ℚ) * ops.atan2 (2 * m.s3) (m.s2 - m.s1)) * m.s2 -
            2 * ops.sin ((1 / 2 : ℚ) * ops.atan2 (2 * m.s3) (m.s2 - m.s1)) *
              ops.cos ((1 / 2 : ℚ) * ops.atan2 (2 * m.s3) (m.s2 - m.s1)) * m.s3,
          ops.cos ((1 / 2 : ℚ) * ops.atan2 (2 * m.s3) (m.s2 - m.s1)) *
              ops.cos ((1 / 2 : ℚ) * ops.atan2 (2 * m.s3) (m.s2 - m.s1)) * m.s2 +
            ops.sin ((1 / 2 : ℚ) * ops.atan2 (2 * m.s3) (m.s2 - m.s1)) *
              ops.sin ((1 / 2 : ℚ) * ops.atan2 (2 * m.s3) (m.s2 - m.s1)) * m.s1 +
            2 * ops.sin ((1 / 2 : ℚ) * ops.atan2 (2 * m.s3) (m.s2 - m.s1)) *
              ops.cos ((1 / 2 : ℚ) * ops.atan2 (2 * m.s3) (m.s2 - m.s1)) * m.s3,
          0,
          ops.sin ((1 / 2 : ℚ) * ops.atan2 (2 * m.s3) (m.s2 - m.s1)) * m.s5 +
            ops.cos ((1 / 2 : ℚ) * ops.atan2 (2 * m.s3) (m.s2 - m.s1)) * m.s4,
          ops.cos ((1 / 2 : ℚ) * ops.atan2 (2 * m.s3) (m.s2 - m.s1)) * m.s5 -
            ops.sin ((1 / 2 : ℚ) * ops.atan2 (2 * m.s3) (m.s2 - m.s1)) * m.s4⟩ : Sym6),
         (⟨u.m0,
           ops.cos ((1 / 2 : ℚ) * ops.atan2 (2 * m.s3) (m.s2 - m.s1)) * u.m1 -
             ops.sin ((1 / 2 : ℚ) * ops.atan2 (2 * m.s3) (m.s2 - m.s1)) * u.m2,
           ops.sin ((1 / 2 : ℚ) * ops.atan2 (2 * m.s3) (m.s2 - m.s1)) * u.m1 +
             ops.cos ((1 / 2 : ℚ) * ops.atan2 (2 * m.s3) (m.s2 - m.s1)) * u.m2,
           u.m3,
           ops.cos ((1 / 2 : ℚ) * ops.atan2 (2 * m.s3) (m.s2 - m.s1)) * u.m4 -
             ops.sin ((1 / 2 : ℚ) * ops.atan2 (2 * m.s3) (m.s2 - m.s1)) * u.m5,
           ops.sin ((1 / 2 : ℚ) * ops.atan2 (2 * m.s3) (m.s2 - m.s1)) * u.m4 +
             ops.cos ((1 / 2 : ℚ) * ops.atan2 (2 * m.s3) (m.s2 - m.s1)) * u.m5,
           u.m6,
           ops.cos ((1 / 2 : ℚ) * ops.atan2 (2 * m.s3) (m.s2 - m.s1)) * u.m7 -
             ops.sin ((1 / 2 : ℚ) * ops.atan2 (2 * m.s3) (m.s2 - m.s1)) * u.m8,
           ops.sin ((1 / 2 : ℚ) * ops.atan2 (2 * m.s3) (m.s2 - m.s1)) * u.m7 +
             ops.cos ((1 / 2 : ℚ) * ops.atan2 (2 * m.s3) (m.s2 - m.s1)) * u.m8⟩ : Mat9)) := by
  ext <;> simp [mat3_sym.jacobi_step, h]

/-- With the concrete `ops0`, one Jacobi step on an already-diagonal packed
matrix with equal diagonal (all off-diagonals zero) is the identity: the
tie goes to the first branch, whose angle is `½·atan2(0, 0) = 0`, so
`cos = 1`, `sin = 0` exactly — as for IEEE `f64`. -/
theorem jacobi_step_ops0_diag (d : ℚ) :
    mat3_sym.jacobi_step ops0 ((⟨d, d, d, 0, 0, 0⟩ : Sym6), identity9)
      = ((⟨d, d, d, 0, 0, 0⟩ : Sym6), identity9) := by
  rw [jacobi_step_eq_of_branch1 ops0 ⟨d, d, d, 0, 0, 0⟩ identity9 (by norm_num)]
  norm_num [ops0, identity9]

/-- The Jacobi loop fixes the diagonal state of `jacobi_step_ops0_diag` for
every iteration budget. -/
theorem jacobi_loop_ops0_diag (n : ℕ) (d : ℚ) :
    mat3_sym.jacobi_loop ops0 n ((⟨d, d, d, 0, 0, 0⟩ : Sym6), identity9)
      = ((⟨d, d, d, 0, 0, 0⟩ : Sym6), identity9) := by
  induction n with
  | zero => rfl
  | succ k ih => rw [mat3_sym.jacobi_loop, jacobi_step_ops0_diag, ih]

/-- Concrete run: the eigendecomposition of the packed identity matrix under
`ops0` returns the identity eigenvectors and unit eigenvalues (the
normalization by `sqrt 3` is exactly undone by the final rescaling, since
`scale * (1 / scale) = 1` in exact arithmetic). -/
theorem eigen_ops0_ones :
    mat3_sym.eigen_decomp ops0 ⟨1, 1, 1, 0, 0, 0⟩ 20 = some (identity9, ⟨1, 1, 1⟩) := by
  rw [mat3_sym.eigen_decomp]
  rw [if_neg (by norm_num [mat3_sym.squared_norm, ops0])]
  rw [show ops0.sqrt (mat3_sym.squared_norm ⟨1, 1, 1, 0, 0, 0⟩) = 7 / 4 from by
    norm_num [mat3_sym.squared_norm, ops0]]
  norm_num
  rw [jacobi_loop_ops0_diag]
  norm_num [identity9]

/-- Concrete run of the (spec-modelled) row-major SVD on the reflection
`diag(1,1,-1)`: the Gram matrix is the identity, so `V = I`, `S = (1,1,1)`,
and the `U` columns are the columns of the input itself. -/
theorem svd_row_ops0_refl :
    mat3_row_major.svd ops0 mat_refl (mat3_sym.EigenDecompositionModes.JacobiNumIter 20)
      = some (mat_refl, ⟨1, 1, 1⟩, identity9) := by
  have hg : mat3_row_major.gram mat_refl = ⟨1, 1, 1, 0, 0, 0⟩ := by
    norm_num [mat3_row_major.gram, mat_refl]
  have he : mat3_sym.eigen_by_mode ops0 (mat3_row_major.gram mat_refl)
      (mat3_sym.EigenDecompositionModes.JacobiNumIter 20) = some (identity9, ⟨1, 1, 1⟩) := by
    simp only [mat3_sym.eigen_by_mode]
    rw [hg, eigen_ops0_ones]
  simp only [mat3_row_major.svd, he]
  norm_num [mat3_row_major.normalize_or_basis, mat3_row_major.mult_vec, ops0,
    identity9, mat_refl]

/-- Concrete run of the column-major SVD wrapper on `diag(1,1,-1)`:
`U = I`, `S = (1,1,1)`, `V = diag(1,1,-1)`. -/
theorem svd_col_ops0_refl :
    mat3_col_major.svd ops0 mat_refl (mat3_sym.EigenDecompositionModes.JacobiNumIter 20)
      = some (identity9, ⟨1, 1, 1⟩, mat_refl) := by
  simp only [mat3_col_major.svd, svd_row_ops0_refl]
  norm_num [transpose, identity9, mat_refl]

/-- C7 amended: `rotational_component` computes `U·Vᵀ` from the SVD and, if
`det(U·Vᵀ)` is not positive, negates the FIRST row of `Vᵀ` (entries 0, 3, 6
of `v_t` — equivalently the first column of `V`), not `V`'s third row,
before re-multiplying; for orthogonal factors (`det U · det V = ±1`) the
returned matrix always has determinant `+1`. -/
theorem claim_C7_rotational_flip (ops : FloatOps) (a u v : Mat9)
    (h : determinant u * determinant v = 1 ∨ determinant u * determinant v = -1) :
    rotational_component ops a
      = Option.map (fun t => rot_tail t.1 t.2.2)
          (mat3_col_major.svd ops a (mat3_sym.EigenDecompositionModes.JacobiNumIter 20)) ∧
    determinant (rot_tail u v) = 1 ∧
    (determinant (mult_mat_col_major u (transpose v)) < 0 →
      rot_tail u v = mult_mat_col_major u (neg_first_row (transpose v))) := by
  have hd : determinant (mult_mat_col_major u (transpose v))
      = determinant u * determinant v := by
    rw [determinant_mult, determinant_transpose]
  refine ⟨rfl, ?_, ?_⟩
  · simp only [rot_tail]
    split_ifs with hpos
    · rcases h with h1 | h1
      · rw [hd]; exact h1
      · rw [hd, h1] at hpos; norm_num at hpos
    · rcases h with h1 | h1
      · rw [hd, h1] at hpos; norm_num at hpos
      · rw [determinant_mult, determinant_neg_first_row, determinant_transpose,
          mul_neg, h1]
        norm_num
  · intro hneg
    simp only [rot_tail]
    rw [if_neg (by linarith)]

/-- Witness for C7 at `U = diag(1,1,-1)`, `V = I` (so `det U · det V = -1`)
and the input matrix `0`. -/
theorem claim_C7_witness :
    (determinant mat_refl * determinant identity9 = 1 ∨
     determinant mat_refl * determinant identity9 = -1) ∧
    (rotational_component ops0 zero9
        = Option.map (fun t => rot_tail t.1 t.2.2)
            (mat3_col_major.svd ops0 zero9
              (mat3_sym.EigenDecompositionModes.JacobiNumIter 20)) ∧
     determinant (rot_tail mat_refl identity9) = 1 ∧
     (determinant (mult_mat_col_major mat_refl (transpose identity9)) < 0 →
       rot_tail mat_refl identity9
         = mult_mat_col_major mat_refl (neg_first_row (transpose identity9)))) :=
  ⟨Or.inr (by norm_num [determinant, mat_refl, identity9]),
   claim_C7_rotational_flip ops0 zero9 mat_refl identity9
     (Or.inr (by norm_num [determinant, mat_refl, identity9]))⟩

/-- C7 counterexample: on `A = diag(1,1,-1)` the code returns
`diag(-1,1,-1)` (it negates the first row of `Vᵀ`), while the claimed
behaviour — negating `V`'s third row — would return the identity; the two
disagree. -/
theorem claim_C7_counterexample :
    rotational_component ops0 mat_refl = some mat_rot_out ∧
    rotational_component_claimed ops0 mat_refl = some identity9 ∧
    mat_rot_out ≠ identity9 := by
  refine ⟨?_, ?_, ?_⟩
  · simp only [rotational_component, svd_col_ops0_refl, Option.map_some']
    rw [show rot_tail identity9 mat_refl
        = mult_mat_col_major identity9 (neg_first_row (transpose mat_refl)) from by
      simp only [rot_tail]
      rw [if_neg (by norm_num [determinant, mult_mat_col_major, transpose,
        identity9, mat_refl])]]
    norm_num [mult_mat_col_major, neg_first_row, transpose, identity9, mat_refl,
      mat_rot_out]
  · simp only [rotational_component_claimed, svd_col_ops0_refl, Option.map_some']
    rw [show rot_tail_claimed identity9 mat_refl
        = mult_mat_col_major identity9 (transpose (neg_third_row mat_refl)) from by
      simp only [rot_tail_claimed]
      rw [if_neg (by norm_num [determinant, mult_mat_col_major, transpose,
        identity9, mat_refl])]]
    norm_num [mult_mat_col_major, neg_third_row, transpose, identity9, mat_refl]
  · norm_num [mat_rot_out, identity9]
